import Mathlib

/-!
Shallow embedding of the `reaxive` reactive-state engine
(`src/observable.rs`, `src/store.rs`, `src/context.rs`).

Modelling conventions:

* Observer callbacks (`Rc<RefCell<dyn FnMut()>>`) are identified by the
  address of their allocation; addresses are `Nat`s handed out by a fresh
  counter and never reused (real `Weak` references keep the allocation
  alive, so `Weak::as_ptr` values of entries retained in a cell's
  `local_subscribers` vector are pairwise distinct per observer).
* Explicit subscriber callbacks (`Box<dyn Fn(&T)>`) are identified by their
  subscription id; a notification pass is modelled as the list of
  invocation events it performs, in order, rather than by running closures.
* The `HashMap<usize, _>` of explicit subscribers is modelled by its key
  set; since `HashMap::values()` iterates in an arbitrary, unspecified
  order, every function that iterates the map takes the iteration order as
  a parameter, constrained to be a permutation of the key set.
* Execution is sequential and callbacks are opaque events (they do not
  re-enter the cell), matching the spec's single-threaded, non-reentrant
  execution model; the `try_borrow_mut` guard in `notify_subscribers` is
  modelled by the set `borrowed` of observer cells currently mutably
  borrowed, which is empty in every top-level run.
-/

namespace Reaxive

/-- Address of one observer-callback allocation (`Rc<RefCell<dyn FnMut()>>`). -/
abbrev ObsId := Nat

/-- Invocation events emitted by a notification pass. -/
inductive Event (T : Type) where
  /-- An explicit subscriber (keyed by its subscription id) was invoked
      with a reference to the value snapshot. -/
  | explicitCall (id : Nat) (v : T)
  /-- An implicit observer callback (identified by its allocation address)
      was invoked with no arguments. -/
  | invalidate (id : ObsId)
deriving DecidableEq, Repr

/-- State of one `ObservableValue<T>` cell (`src/observable.rs`, lines 46-52):
`value`, the key set of the `subscribers` hash map, the `next_id` counter and
the `local_subscribers` vector of weak observer links (each link recorded by
the address of its target). -/
structure Cell (T : Type) where
  value : T
  subscribers : List Nat
  nextId : Nat
  localSubscribers : List ObsId
deriving DecidableEq, Repr

/-- Embeds `ObservableValue::new` (`src/observable.rs`, lines 55-62). -/
def Cell.new (initial : T) : Cell T :=
  { value := initial, subscribers := [], nextId := 0, localSubscribers := [] }

/-- State of one logical execution context: the `CURRENT_OBSERVER`
thread-local slot, the set of observer allocations still strongly owned by a
live `ObserverContext` handle, the set of observer `RefCell`s currently
mutably borrowed, the fresh-address counter, and one cell. -/
structure World (T : Type) where
  slot : Option ObsId
  handles : List ObsId
  borrowed : List ObsId
  nextObs : ObsId
  cell : Cell T
deriving DecidableEq, Repr

/-- A fresh context: empty ambient slot, no live handles, one new cell. -/
def World.init (initial : T) : World T :=
  { slot := none, handles := [], borrowed := [], nextObs := 0,
    cell := Cell.new initial }

/-- Embeds `ObserverContext::new` (`src/observable.rs`, lines 17-25): allocate the
observer callback, store a strong reference in the handle, and install a
clone of it into `CURRENT_OBSERVER`. Returns the new world and the address
of the allocated observer. -/
def observerNew (w : World T) : World T × ObsId :=
  ({ w with slot := some w.nextObs,
            handles := w.nextObs :: w.handles,
            nextObs := w.nextObs + 1 }, w.nextObs)

/-- Embeds `impl Drop for ObserverContext` (`src/observable.rs`, lines 28-34): the
`CURRENT_OBSERVER` slot is unconditionally set to `None`, and the handle's
strong reference to its observer allocation `id` is released. -/
def observerDrop (id : ObsId) (w : World T) : World T :=
  { w with slot := none, handles := w.handles.erase id }

/-- Embeds `Weak::upgrade` succeeds exactly when some strong reference to the
observer allocation remains: either a live handle owns it or the ambient
slot still holds the clone installed by `ObserverContext::new`. -/
def aliveObs (w : World T) (id : ObsId) : Bool :=
  w.handles.contains id || w.slot == some id

/-- Embeds `ObservableValue::track_access` (`src/observable.rs`, lines 126-141):
if an ambient observer is installed, append a weak link to it unless an
existing link already targets the same allocation address
(`std::ptr::addr_eq` on `Weak::as_ptr`). -/
def track_access (w : World T) : World T :=
  match w.slot with
  | none => w
  | some id =>
      if w.cell.localSubscribers.contains id then w
      else { w with cell :=
        { w.cell with localSubscribers := w.cell.localSubscribers ++ [id] } }

/-- The `Vec::retain` sweep in `notify_subscribers` (`src/observable.rs`,
lines 113-123): walk the weak links front to back; a link whose target is
dead is dropped; a live link is retained, and its callback is invoked
unless its `RefCell` is already mutably borrowed (`try_borrow_mut` fails).
Returns the retained links and the addresses invoked, both in order. -/
def sweep (alive borrowed : ObsId → Bool) : List ObsId → List ObsId × List ObsId
  | [] => ([], [])
  | id :: rest =>
      let r := sweep alive borrowed rest
      if alive id then
        if borrowed id then (id :: r.1, r.2)
        else (id :: r.1, id :: r.2)
      else (r.1, r.2)

/-- Embeds `ObservableValue::notify_subscribers` (`src/observable.rs`, lines
105-124): snapshot the value, invoke every explicit subscriber with the
snapshot in the hash map's iteration order `order`, then sweep the implicit
links. Returns the new world and the events in invocation order. -/
def notify_subscribers (order : List Nat) (w : World T) :
    World T × List (Event T) :=
  let v := w.cell.value
  let s := sweep (aliveObs w) (fun id => w.borrowed.contains id)
      w.cell.localSubscribers
  ({ w with cell := { w.cell with localSubscribers := s.1 } },
   order.map (fun id => Event.explicitCall id v) ++ s.2.map Event.invalidate)

/-- Embeds `Observable::get` for `ObservableValue` (`src/observable.rs`, lines
145-148): track the access, then return a clone of the value. -/
def get (w : World T) : World T × T :=
  let w' := track_access w
  (w', w'.cell.value)

/-- Embeds `Observable::set` (`src/observable.rs`, lines 150-153): store the new
value, then notify; `order` is the hash map's iteration order for the
explicit fan-out. -/
def set (order : List Nat) (v : T) (w : World T) : World T × List (Event T) :=
  notify_subscribers order { w with cell := { w.cell with value := v } }

/-- Embeds `Observable::update` (`src/observable.rs`, lines 155-164): mutate the
value in place under the lock, release it, then notify. -/
def update (order : List Nat) (f : T → T) (w : World T) :
    World T × List (Event T) :=
  notify_subscribers order { w with cell := { w.cell with value := f w.cell.value } }

/-- Embeds `Observable::subscribe` (`src/observable.rs`, lines 166-179): take a
fresh id from `next_id`, increment the counter, insert the callback into
the hash map under that id (on the key set: add the key if absent), and
return the id. -/
def subscribe (w : World T) : World T × Nat :=
  let id := w.cell.nextId
  ({ w with cell :=
      { w.cell with
        nextId := id + 1,
        subscribers :=
          if w.cell.subscribers.contains id then w.cell.subscribers
          else w.cell.subscribers ++ [id] } }, id)

/-- Embeds `Observable::unsubscribe` (`src/observable.rs`, lines 181-183): remove
the hash-map entry with the given id, if any. -/
def unsubscribe (id : Nat) (w : World T) : World T :=
  { w with cell := { w.cell with subscribers := w.cell.subscribers.erase id } }

/-- The subscription ids of the explicit-call events in a trace, in order. -/
def eventSubIds : List (Event T) → List Nat
  | [] => []
  | Event.explicitCall id _ :: es => id :: eventSubIds es
  | Event.invalidate _ :: es => eventSubIds es

/-- The observer addresses of the invalidate events in a trace, in order. -/
def eventInvIds : List (Event T) → List ObsId
  | [] => []
  | Event.explicitCall _ _ :: es => eventInvIds es
  | Event.invalidate id :: es => id :: eventInvIds es

/-- Iterate `get`, discarding the returned values. -/
def getN : Nat → World T → World T
  | 0, w => w
  | n + 1, w => getN n (get w).1

/-- One client call against a cell, for reasoning about call sequences:
subscribe, unsubscribe a given id, write a value (with the hash map's
iteration order for that write), or read. -/
inductive Op (T : Type) where
  | sub
  | unsub (id : Nat)
  | write (v : T) (order : List Nat)
  | read
deriving DecidableEq, Repr

/-- Run a sequence of calls, collecting the ids returned by the
`subscribe` calls in order. -/
def runOps : List (Op T) → World T → World T × List Nat
  | [], w => (w, [])
  | Op.sub :: ops, w =>
      let r := subscribe w
      let r' := runOps ops r.1
      (r'.1, r.2 :: r'.2)
  | Op.unsub i :: ops, w => runOps ops (unsubscribe i w)
  | Op.write v order :: ops, w => runOps ops (set order v w).1
  | Op.read :: ops, w => runOps ops (get w).1

/-! ## Handles and sharing (`#[derive(Clone)]` on `ObservableValue`)

`ObservableValue<T>` is a quadruple of shared pointers
(`Arc<Mutex<T>>`, `Arc<Mutex<HashMap<usize, _>>>`, `Arc<Mutex<usize>>`,
`Rc<RefCell<Vec<Weak<_>>>>`).  To state what cloning a handle shares, the
four allocations live in four heaps and a handle holds the four addresses;
`new` allocates all four afresh, and the derived `Clone` clones each
pointer field, i.e. copies each address. -/

/-- An `ObservableValue<T>` handle: the addresses of its four shared
allocations (`src/observable.rs`, lines 46-52). -/
structure OVHandle where
  valuePtr : Nat
  subscribersPtr : Nat
  nextIdPtr : Nat
  localPtr : Nat
deriving DecidableEq, Repr

/-- The derived `Clone` for `ObservableValue` clones each of the four
shared-pointer fields: an `Arc`/`Rc` clone yields a pointer to the same
allocation, so each address is copied unchanged. -/
def OVHandle.clone (h : OVHandle) : OVHandle :=
  { valuePtr := h.valuePtr, subscribersPtr := h.subscribersPtr,
    nextIdPtr := h.nextIdPtr, localPtr := h.localPtr }

/-- An execution context holding many cells: the ambient-observer state as
in `World`, plus the four heaps of cell allocations, indexed by address. -/
structure HWorld (T : Type) where
  slot : Option ObsId
  handles : List ObsId
  borrowed : List ObsId
  nextObs : ObsId
  values : List T
  subsMaps : List (List Nat)
  counters : List Nat
  locals : List (List ObsId)
deriving DecidableEq, Repr

/-- The handle's four addresses all point into the heaps. -/
def OVValid (h : OVHandle) (w : HWorld T) : Prop :=
  h.valuePtr < w.values.length ∧ h.subscribersPtr < w.subsMaps.length ∧
  h.nextIdPtr < w.counters.length ∧ h.localPtr < w.locals.length

/-- Embeds `ObservableValue::new` at the heap level: allocate a value slot, an
empty subscriber map, a zero counter and an empty weak-link vector, and
return a handle holding the four fresh addresses. -/
def newOV (initial : T) (w : HWorld T) : HWorld T × OVHandle :=
  ({ w with values := w.values ++ [initial], subsMaps := w.subsMaps ++ [[]],
            counters := w.counters ++ [0], locals := w.locals ++ [[]] },
   { valuePtr := w.values.length, subscribersPtr := w.subsMaps.length,
     nextIdPtr := w.counters.length, localPtr := w.locals.length })

/-- Embeds `Weak::upgrade` at the heap level (same as `aliveObs`). -/
def aliveObsH (w : HWorld T) (id : ObsId) : Bool :=
  w.handles.contains id || w.slot == some id

/-- Embeds `track_access` through a handle: the dedup-and-append on the weak-link
vector at the handle's `localPtr` address. -/
def track_accessH (h : OVHandle) (w : HWorld T) : HWorld T :=
  match w.slot with
  | none => w
  | some id =>
      let ls := w.locals.getD h.localPtr []
      if ls.contains id then w
      else { w with locals := w.locals.set h.localPtr (ls ++ [id]) }

/-- Embeds `get` through a handle. -/
def getH [Inhabited T] (h : OVHandle) (w : HWorld T) : HWorld T × T :=
  let w' := track_accessH h w
  (w', w'.values.getD h.valuePtr default)

/-- Embeds `notify_subscribers` through a handle: snapshot the value at
`valuePtr`, fan out to the subscriber map at `subscribersPtr` in iteration
order `order`, sweep the weak links at `localPtr`. -/
def notifyH [Inhabited T] (order : List Nat) (h : OVHandle) (w : HWorld T) :
    HWorld T × List (Event T) :=
  let v := w.values.getD h.valuePtr default
  let s := sweep (aliveObsH w) (fun id => w.borrowed.contains id)
      (w.locals.getD h.localPtr [])
  ({ w with locals := w.locals.set h.localPtr s.1 },
   order.map (fun id => Event.explicitCall id v) ++ s.2.map Event.invalidate)

/-- Embeds `set` through a handle. -/
def setH [Inhabited T] (order : List Nat) (h : OVHandle) (v : T)
    (w : HWorld T) : HWorld T × List (Event T) :=
  notifyH order h { w with values := w.values.set h.valuePtr v }

/-- Embeds `subscribe` through a handle: take the fresh id from the shared
counter at `nextIdPtr`, bump it, and add the id to the shared subscriber
map at `subscribersPtr`. -/
def subscribeH (h : OVHandle) (w : HWorld T) : HWorld T × Nat :=
  let id := w.counters.getD h.nextIdPtr 0
  let subs := w.subsMaps.getD h.subscribersPtr []
  ({ w with counters := w.counters.set h.nextIdPtr (id + 1),
            subsMaps := w.subsMaps.set h.subscribersPtr
              (if subs.contains id then subs else subs ++ [id]) }, id)

/-! ## Type-keyed registries (`src/store.rs`, `src/context.rs`)

`TypeId`s are modelled as `Nat`s.  A registered store value
(`Arc<dyn Any + Send + Sync>`) is identified by the identity of the shared
state it is a handle over: store types are cheap clonable handles whose
clones share one underlying state, so `S::default()` creates a fresh
identity and `store.clone()` preserves it. -/

/-- The `HashMap<TypeId, Arc<dyn Any>>` contents, as an association list
from type id to the identity of the registered shared instance. -/
abbrev TypeMap := List (Nat × Nat)

/-- Embeds `HashMap::insert`: replace the binding of `tid` if present, otherwise
add a new binding. -/
def TypeMap.insertTM (tid inst : Nat) : TypeMap → TypeMap
  | [] => [(tid, inst)]
  | (k, v) :: rest =>
      if k = tid then (tid, inst) :: rest
      else (k, v) :: TypeMap.insertTM tid inst rest

/-- Embeds `HashMap::get`: the binding of `tid`, if any. -/
def TypeMap.lookupTM (tid : Nat) : TypeMap → Option Nat
  | [] => none
  | (k, v) :: rest => if k = tid then some v else TypeMap.lookupTM tid rest

/-- Embeds `HashMap::remove`: drop the binding of `tid`, if any. -/
def TypeMap.removeTM (tid : Nat) : TypeMap → TypeMap
  | [] => []
  | (k, v) :: rest =>
      if k = tid then rest else (k, v) :: TypeMap.removeTM tid rest

/-- Embeds `StoreRegistry` (`src/store.rs`, lines 13-16): a shared map from type
identity to the registered instance. -/
structure StoreRegistry where
  stores : TypeMap
deriving DecidableEq, Repr

namespace StoreRegistry

/-- Embeds `StoreRegistry::new` (`src/store.rs`, lines 19-23). -/
def new : StoreRegistry := { stores := [] }

/-- Embeds `StoreRegistry::register` (`src/store.rs`, lines 25-28): insert the
instance under its type id. -/
def register (tid inst : Nat) (r : StoreRegistry) : StoreRegistry :=
  { stores := TypeMap.insertTM tid inst r.stores }

/-- Embeds `StoreRegistry::get` (`src/store.rs`, lines 30-37): look up the entry
for the type and return a clone of it (a handle sharing its state). -/
def getStore (tid : Nat) (r : StoreRegistry) : Option Nat :=
  TypeMap.lookupTM tid r.stores

/-- Embeds `StoreRegistry::get_or_create` (`src/store.rs`, lines 39-47): return
the registered instance if present; otherwise default-construct a fresh
instance (`inst`), register a clone of it, and return it. -/
def get_or_create (tid fresh : Nat) (r : StoreRegistry) : StoreRegistry × Nat :=
  match r.getStore tid with
  | some inst => (r, inst)
  | none => (r.register tid fresh, fresh)

/-- Embeds `StoreRegistry::has` (`src/store.rs`, lines 49-51). -/
def hasStore (tid : Nat) (r : StoreRegistry) : Bool :=
  (r.getStore tid).isSome

/-- Embeds `StoreRegistry::remove` (`src/store.rs`, lines 53-55). -/
def removeStore (tid : Nat) (r : StoreRegistry) : StoreRegistry :=
  { stores := TypeMap.removeTM tid r.stores }

/-- Embeds `StoreRegistry::clear` (`src/store.rs`, lines 57-59). -/
def clear (_r : StoreRegistry) : StoreRegistry := { stores := [] }

/-- Embeds `StoreRegistry::count` (`src/store.rs`, lines 61-63). -/
def count (r : StoreRegistry) : Nat := r.stores.length

end StoreRegistry

/-- Embeds `StoreContext` (`src/context.rs`, lines 6-10): an
`Arc<Mutex<HashMap<TypeId, Arc<dyn Any>>>>` pointer together with a name.
The shared map allocation is modelled by its address into a heap of
`TypeMap`s. -/
structure StoreContext where
  storesPtr : Nat
  name : String
deriving DecidableEq, Repr

/-- The heap of shared store-map allocations pointed to by `StoreContext`s. -/
structure CtxHeap where
  maps : List TypeMap
deriving DecidableEq, Repr

/-- The map a context's `stores` pointer refers to. -/
def ctxMap (c : StoreContext) (hp : CtxHeap) : TypeMap :=
  hp.maps.getD c.storesPtr []

/-- A context's pointer refers to an allocation present in the heap. -/
def ctxValid (c : StoreContext) (hp : CtxHeap) : Prop :=
  c.storesPtr < hp.maps.length

namespace StoreContext

/-- Embeds `StoreContext::with_name` (`src/context.rs`, lines 20-25): a fresh
empty map allocation and the given name. -/
def with_name (n : String) (hp : CtxHeap) : CtxHeap × StoreContext :=
  ({ maps := hp.maps ++ [[]] }, { storesPtr := hp.maps.length, name := n })

/-- Embeds `StoreContext::register` (`src/context.rs`, lines 27-30): insert into
the shared map through the context's pointer. -/
def register (c : StoreContext) (tid inst : Nat) (hp : CtxHeap) : CtxHeap :=
  { maps := hp.maps.set c.storesPtr (TypeMap.insertTM tid inst (ctxMap c hp)) }

/-- Embeds `StoreContext::get` (`src/context.rs`, lines 32-39). -/
def getStore (c : StoreContext) (tid : Nat) (hp : CtxHeap) : Option Nat :=
  TypeMap.lookupTM tid (ctxMap c hp)

/-- Embeds `StoreContext::has` (`src/context.rs`, lines 51-53). -/
def hasStore (c : StoreContext) (tid : Nat) (hp : CtxHeap) : Bool :=
  (c.getStore tid hp).isSome

/-- Embeds `StoreContext::remove` (`src/context.rs`, lines 55-57). -/
def removeStore (c : StoreContext) (tid : Nat) (hp : CtxHeap) : CtxHeap :=
  { maps := hp.maps.set c.storesPtr (TypeMap.removeTM tid (ctxMap c hp)) }

/-- Embeds `StoreContext::clear` (`src/context.rs`, lines 59-61). -/
def clear (c : StoreContext) (hp : CtxHeap) : CtxHeap :=
  { maps := hp.maps.set c.storesPtr [] }

/-- Embeds `StoreContext::count` (`src/context.rs`, lines 67-69). -/
def count (c : StoreContext) (hp : CtxHeap) : Nat :=
  (ctxMap c hp).length

/-- Embeds `StoreContext::clone_to` (`src/context.rs`, lines 71-76): clone the
`Arc` pointer to the shared map (same address) and take the new name. -/
def clone_to (c : StoreContext) (n : String) : StoreContext :=
  { storesPtr := c.storesPtr, name := n }

end StoreContext

/-! ## Concrete states used to exercise the operations -/

/-- A world with two explicit subscribers, holding ids 0 and 1. -/
def twoSubWorld : World Nat := (subscribe (subscribe (World.init 0)).1).1

/-- Runs the scenario of two observer handles installed in sequence (H1 at
address 0, then H2 at address 1), after which H1 is disposed. -/
def c1DropWorld : World Nat :=
  observerDrop (observerNew (World.init 0)).2
    (observerNew (observerNew (World.init 0)).1).1

/-- A world where observer 0 is installed and one tracked read has
recorded its implicit link. -/
def trackedWorld : World Nat := (get (observerNew (World.init 0)).1).1

/-- An execution context with no cells allocated yet. -/
def HWorld.empty : HWorld Nat :=
  { slot := none, handles := [], borrowed := [], nextObs := 0,
    values := [], subsMaps := [], counters := [], locals := [] }

/-- A heap context holding one freshly created cell with value 0. -/
def hw1 : HWorld Nat := (newOV 0 HWorld.empty).1

/-- The handle of the one cell in `hw1`. -/
def hA : OVHandle := (newOV 0 HWorld.empty).2

/-- A context heap with a single empty store-map allocation. -/
def ctxHeap1 : CtxHeap := { maps := [[]] }

/-- A context whose pointer refers to the allocation in `ctxHeap1`. -/
def ctxA : StoreContext := { storesPtr := 0, name := "main" }

/-! ## Lemmas about event traces and the sweep -/

lemma eventSubIds_append (es fs : List (Event T)) :
    eventSubIds (es ++ fs) = eventSubIds es ++ eventSubIds fs := by
  induction es with
  | nil => rfl
  | cons e es ih => cases e <;> simp [eventSubIds, ih]

lemma eventSubIds_map_explicitCall (order : List Nat) (v : T) :
    eventSubIds (order.map fun id => Event.explicitCall id v) = order := by
  induction order with
  | nil => rfl
  | cons i os ih => simp [eventSubIds, ih]

lemma eventSubIds_map_invalidate (l : List ObsId) :
    eventSubIds (T := T) (l.map Event.invalidate) = [] := by
  induction l with
  | nil => rfl
  | cons i os ih => simp [eventSubIds, ih]

lemma eventInvIds_append (es fs : List (Event T)) :
    eventInvIds (es ++ fs) = eventInvIds es ++ eventInvIds fs := by
  induction es with
  | nil => rfl
  | cons e es ih => cases e <;> simp [eventInvIds, ih]

lemma eventInvIds_map_explicitCall (order : List Nat) (v : T) :
    eventInvIds (order.map fun id => Event.explicitCall id v) = [] := by
  induction order with
  | nil => rfl
  | cons i os ih => simp [eventInvIds, ih]

lemma eventInvIds_map_invalidate (l : List ObsId) :
    eventInvIds (T := T) (l.map Event.invalidate) = l := by
  induction l with
  | nil => rfl
  | cons i os ih => simp [eventInvIds, ih]

lemma sweep_eq (a b : ObsId → Bool) (l : List ObsId) :
    sweep a b l = (l.filter a, l.filter fun i => a i && !(b i)) := by
  induction l with
  | nil => rfl
  | cons id rest ih =>
      cases ha : a id <;> cases hb : b id <;>
        simp [sweep, ih, List.filter_cons, ha, hb]

/-- The explicit-call ids of one notification pass are exactly the hash
map's iteration order. -/
lemma eventSubIds_notify (order : List Nat) (w : World T) :
    eventSubIds (notify_subscribers order w).2 = order := by
  simp [notify_subscribers, eventSubIds_append, eventSubIds_map_explicitCall,
    eventSubIds_map_invalidate]

/-- The invalidate targets of one notification pass are the live,
unborrowed links, in list order. -/
lemma eventInvIds_notify (order : List Nat) (w : World T) :
    eventInvIds (notify_subscribers order w).2
      = w.cell.localSubscribers.filter
          fun i => aliveObs w i && !(w.borrowed.contains i) := by
  simp [notify_subscribers, eventInvIds_append, eventInvIds_map_explicitCall,
    eventInvIds_map_invalidate, sweep_eq]

lemma count_explicitCall_map [DecidableEq T] (order : List Nat) (v : T)
    (id : Nat) :
    ((order.map fun i => Event.explicitCall i v).count
        (Event.explicitCall id v)) = order.count id := by
  induction order with
  | nil => rfl
  | cons i os ih =>
      simp only [List.map_cons, List.count_cons, ih]
      by_cases h : i = id
      · simp [h]
      · simp [h, Event.explicitCall.injEq]

lemma count_explicitCall_map_invalidate [DecidableEq T] (l : List ObsId)
    (id : Nat) (v : T) :
    ((l.map Event.invalidate).count (Event.explicitCall id v)) = 0 := by
  rw [List.count_eq_zero]
  intro h
  rcases List.mem_map.mp h with ⟨i, _, hi⟩
  exact Event.noConfusion hi

/-! ## Claim C1 -/

/-- Claim C1 as stated is false on the code: in the run recorded by
`c1DropWorld`, handle H1 (observer address 0) is installed, then H2
(observer address 1) is installed, then H1 is disposed.  The claim asserts
that disposing H1 leaves H2 installed in the ambient slot; the code's
`Drop` impl unconditionally writes `None`, so the slot no longer holds H2
and a subsequent read tracks nothing. -/
theorem c1_counterexample :
    (observerNew (World.init (0 : Nat))).2 = 0 ∧
    (observerNew (observerNew (World.init (0 : Nat))).1).2 = 1 ∧
    ¬ c1DropWorld.slot = some 1 ∧
    c1DropWorld.slot = none ∧
    (get c1DropWorld).1.cell.localSubscribers = [] := by
  decide

/-- Claim C1 (amended): disposing an Observer Handle unconditionally
clears the Ambient Observer Slot — even when a different handle's callback
was installed more recently — so after the disposal no ambient observer is
installed and subsequent cell reads are untracked (they record no implicit
link) until a new handle is installed. -/
theorem c1_drop_unconditionally_clears (w : World T) (id1 : ObsId) :
    (observerDrop id1 w).slot = none ∧
    track_access (observerDrop id1 w) = observerDrop id1 w ∧
    (get (observerDrop id1 w)).1 = observerDrop id1 w := by
  exact ⟨rfl, rfl, rfl⟩

/-! ## Claim C2 -/

/-- Claim C2 as stated is false on the code: `notify_subscribers` iterates
`self.subscribers.values()` of a `std::collections::HashMap`, whose
iteration order is arbitrary.  `twoSubWorld` holds explicit subscribers 0
and 1; the iteration order `[1, 0]` is a permutation of the key set, and
the write then invokes subscriber 1 before subscriber 0 — not in ascending
id order. -/
theorem c2_counterexample :
    ([1, 0] : List Nat).Perm twoSubWorld.cell.subscribers ∧
    2 ≤ twoSubWorld.cell.subscribers.length ∧
    eventSubIds (set [1, 0] 5 twoSubWorld).2 = [1, 0] ∧
    ¬ List.Pairwise (· < ·) (eventSubIds (set [1, 0] 5 twoSubWorld).2) := by
  have h3 : eventSubIds (set [1, 0] 5 twoSubWorld).2 = [1, 0] := by decide
  refine ⟨?_, by decide, h3, ?_⟩
  · have h : twoSubWorld.cell.subscribers = [0, 1] := by decide
    rw [h]
    exact List.Perm.swap 0 1 []
  · rw [h3]
    intro hp
    have h10 := (List.pairwise_cons.mp hp).1 0 (by simp)
    omega

/-- Claim C2 (amended): on every write, the explicit subscribers are each
invoked exactly as often as they occur in the subscriber map — i.e. every
registered subscriber exactly once — but in the hash map's unspecified
iteration order, with no ascending-id (or other) ordering guarantee. -/
theorem c2_explicit_fanout_complete (w : World T) (order : List Nat) (v : T)
    (horder : order.Perm w.cell.subscribers) :
    ∀ id : Nat,
      (eventSubIds (set order v w).2).count id
        = w.cell.subscribers.count id := by
  intro id
  have h : eventSubIds (set order v w).2 = order := eventSubIds_notify _ _
  rw [h]
  exact horder.count_eq id

/-- Witness for `c2_explicit_fanout_complete` at `twoSubWorld` with
iteration order `[1, 0]`. -/
theorem c2_explicit_fanout_complete_witness :
    (eventSubIds (set [1, 0] (5 : Nat) twoSubWorld).2).count 0
      = twoSubWorld.cell.subscribers.count 0 :=
  c2_explicit_fanout_complete twoSubWorld [1, 0] 5 (by decide) 0

/-! ## Claim C3 -/

/-- Claim C3: `set(v)` replaces the stored value and then unconditionally
runs the notification pass: the explicit-call events of the pass cover the
registered subscriber ids exactly, and every currently registered explicit
subscriber is invoked exactly once with the new value `v`.  The statement
quantifies over all `v` with no hypothesis relating `v` to the previous
value, so it holds in particular when `v` equals the previous value: there
is no equality short-circuit.  `order` is the hash map's arbitrary
iteration order for this write. -/
theorem c3_set_unconditionally_notifies [DecidableEq T] (w : World T)
    (order : List Nat) (v : T)
    (horder : order.Perm w.cell.subscribers)
    (hnodup : w.cell.subscribers.Nodup) :
    ((set order v w).1).cell.value = v ∧
    (eventSubIds (set order v w).2).Perm w.cell.subscribers ∧
    ∀ id ∈ w.cell.subscribers,
      ((set order v w).2).count (Event.explicitCall id v) = 1 := by
  refine ⟨rfl, ?_, ?_⟩
  · have h : eventSubIds (set order v w).2 = order := eventSubIds_notify _ _
    rw [h]
    exact horder
  · intro id hid
    simp only [set, notify_subscribers]
    rw [List.count_append, count_explicitCall_map,
      count_explicitCall_map_invalidate, Nat.add_zero, horder.count_eq id]
    exact List.count_eq_one_of_mem hnodup hid

/-- Witness for `c3_set_unconditionally_notifies`: writing 0 to
`twoSubWorld`, whose current value is already 0, still invokes subscriber
1 exactly once. -/
theorem c3_set_unconditionally_notifies_witness :
    twoSubWorld.cell.value = 0 ∧
    ((set [1, 0] (0 : Nat) twoSubWorld).2).count (Event.explicitCall 1 0)
      = 1 := by
  have hperm : ([1, 0] : List Nat).Perm twoSubWorld.cell.subscribers := by
    have h : twoSubWorld.cell.subscribers = [0, 1] := by decide
    rw [h]
    exact List.Perm.swap 0 1 []
  exact ⟨by decide,
    (c3_set_unconditionally_notifies twoSubWorld [1, 0] 0 hperm
      (by decide)).2.2 1 (by decide)⟩

/-! ## Claim C4 -/

lemma track_access_of_mem (w : World T) (h : ObsId) (hs : w.slot = some h)
    (hm : h ∈ w.cell.localSubscribers) : track_access w = w := by
  unfold track_access
  rw [hs]
  have hc : w.cell.localSubscribers.contains h = true := by
    simp [List.elem_iff]
    exact hm
  simp [hc]
  intro hcon
  exact absurd hm hcon

lemma track_access_of_not_mem (w : World T) (h : ObsId)
    (hs : w.slot = some h) (hm : h ∉ w.cell.localSubscribers) :
    track_access w = { w with cell :=
      { w.cell with localSubscribers := w.cell.localSubscribers ++ [h] } } := by
  unfold track_access
  rw [hs]
  have hc : w.cell.localSubscribers.contains h = false := by
    simp [List.elem_iff]
    exact hm
  simp [hc]
  intro hcon
  exact absurd hcon hm

lemma getN_of_stable (n : Nat) (w : World T) (hw : track_access w = w) :
    getN n w = w := by
  induction n with
  | zero => rfl
  | succ n ih =>
      show getN n (get w).1 = w
      rw [show (get w).1 = track_access w from rfl, hw]
      exact ih

/-- The invalidate events of a write target exactly the live, unborrowed
links of the written cell, in list order. -/
lemma eventInvIds_set (order : List Nat) (v : T) (u : World T) :
    eventInvIds (set order v u).2
      = u.cell.localSubscribers.filter
          fun i => aliveObs u i && !(u.borrowed.contains i) :=
  eventInvIds_notify order _

/-- A write replaces the implicit-link list by its live entries. -/
lemma set_localSubscribers (order : List Nat) (v : T) (u : World T) :
    ((set order v u).1).cell.localSubscribers
      = u.cell.localSubscribers.filter (aliveObs u) := by
  show (sweep (aliveObs u) (fun i => u.borrowed.contains i)
      u.cell.localSubscribers).1 = _
  rw [sweep_eq]

/-- Claim C4: install an observer (`observerNew`), then read the cell `n`
times (`n ≥ 1`).  Only one implicit link targeting the observer's
allocation is recorded — duplicates are detected by comparing the weak
targets' addresses — and a subsequent write therefore invokes its
invalidate callback exactly once. -/
theorem c4_tracking_dedups_by_identity (w : World T) (n : Nat) (hn : 1 ≤ n)
    (hfresh : w.nextObs ∉ w.cell.localSubscribers)
    (hborrow : w.nextObs ∉ w.borrowed) :
    ((getN n (observerNew w).1).cell.localSubscribers.count w.nextObs = 1) ∧
    ∀ order v,
      ((eventInvIds (set order v (getN n (observerNew w).1)).2).count
          w.nextObs = 1) := by
  obtain ⟨m, rfl⟩ : ∃ m, n = m + 1 := ⟨n - 1, by omega⟩
  set h := w.nextObs with hh
  set w1 := (observerNew w).1 with hw1
  have hslot : w1.slot = some h := rfl
  have hloc : w1.cell.localSubscribers = w.cell.localSubscribers := rfl
  have hstep : (get w1).1 = { w1 with cell :=
      { w1.cell with localSubscribers := w1.cell.localSubscribers ++ [h] } } := by
    show track_access w1 = _
    exact track_access_of_not_mem w1 h hslot (by rw [hloc]; exact hfresh)
  set w2 := { w1 with cell :=
      { w1.cell with localSubscribers := w1.cell.localSubscribers ++ [h] } }
    with hw2
  have hrest : getN (m + 1) w1 = w2 := by
    show getN m (get w1).1 = w2
    rw [hstep]
    exact getN_of_stable m w2
      (track_access_of_mem w2 h rfl (by simp [hw2]))
  rw [hrest]
  have hcount : w2.cell.localSubscribers.count h = 1 := by
    have h0 : w.cell.localSubscribers.count h = 0 :=
      List.count_eq_zero.mpr hfresh
    simp [hw2, hloc, List.count_append, h0]
  refine ⟨hcount, ?_⟩
  intro order v
  rw [eventInvIds_set]
  have hp : (aliveObs w2 h && !(w2.borrowed.contains h)) = true := by
    have ha : aliveObs w2 h = true := by
      simp [aliveObs, hw2, hw1, observerNew]
    have hb : w2.borrowed.contains h = false := by
      simp [List.elem_iff]
      exact hborrow
    rw [ha, hb]
    rfl
  exact (@List.count_filter ObsId _ _
    (fun i => aliveObs w2 i && !(w2.borrowed.contains i)) h
    w2.cell.localSubscribers hp).trans hcount

/-- Witness for `c4_tracking_dedups_by_identity`: from a fresh world, one
installed observer and three reads record one link, and a write of 7
invalidates it once. -/
theorem c4_tracking_dedups_by_identity_witness :
    ((getN 3 (observerNew (World.init (0 : Nat))).1).cell.localSubscribers.count
        (World.init (0 : Nat)).nextObs = 1) ∧
    ((eventInvIds (set [] 7 (getN 3 (observerNew (World.init (0 : Nat))).1)).2).count
        (World.init (0 : Nat)).nextObs = 1) := by
  have h := c4_tracking_dedups_by_identity (World.init (0 : Nat)) 3
    (by decide) (by decide) (by decide)
  exact ⟨h.1, h.2 [] 7⟩

/-! ## Claim C5 -/

/-- Claim C5: on a notification pass (here the one run by a write), the
implicit-link list is swept in order: every entry whose weak reference
still resolves is retained and its callback is invoked (the retained list
and the invoked targets coincide, in list order, when no observer cell is
mutably borrowed), and every entry whose weak reference no longer resolves
is removed.  Consequently, after disposing the observer handle owning
allocation `h`, the next write retains no link to `h` and never invokes
its invalidate callback. -/
theorem c5_sweep_prunes_dead_links (w : World T) (h : ObsId)
    (order : List Nat) (v : T)
    (hborrow : w.borrowed = [])
    (hnodup : w.handles.Nodup) :
    ((set order v w).1).cell.localSubscribers
      = w.cell.localSubscribers.filter (aliveObs w) ∧
    eventInvIds (set order v w).2
      = w.cell.localSubscribers.filter (aliveObs w) ∧
    ((eventInvIds (set order v (observerDrop h w)).2).count h = 0) ∧
    h ∉ ((set order v (observerDrop h w)).1).cell.localSubscribers := by
  have hdead : aliveObs (observerDrop h w) h = false := by
    simp [aliveObs, observerDrop]
    exact hnodup.not_mem_erase
  refine ⟨set_localSubscribers order v w, ?_, ?_, ?_⟩
  · rw [eventInvIds_set, hborrow]
    have hfun : (fun i => aliveObs w i && !(([] : List ObsId).contains i))
        = fun i => aliveObs w i := by
      funext i
      simp
    rw [hfun]
  · rw [eventInvIds_set, List.count_eq_zero]
    intro hmem
    have hp := List.of_mem_filter hmem
    rw [hdead] at hp
    simp at hp
  · rw [set_localSubscribers]
    intro hmem
    have hp := List.of_mem_filter hmem
    rw [hdead] at hp
    simp at hp

/-- Witness for `c5_sweep_prunes_dead_links` at `trackedWorld` (observer 0
installed and tracked by cell reads): after disposing the handle, a write
of 7 invokes observer 0 zero times and drops its link. -/
theorem c5_sweep_prunes_dead_links_witness :
    ((eventInvIds (set [] 7 (observerDrop 0 trackedWorld)).2).count 0 = 0) ∧
    0 ∉ ((set [] 7 (observerDrop 0 trackedWorld)).1).cell.localSubscribers ∧
    trackedWorld.cell.localSubscribers = [0] := by
  have h := c5_sweep_prunes_dead_links trackedWorld 0 [] 7
    (by decide) (by decide)
  exact ⟨h.2.2.1, h.2.2.2, by decide⟩

/-! ## Claim C6 -/

lemma lookupTM_insertTM_self (tid inst : Nat) (m : TypeMap) :
    TypeMap.lookupTM tid (TypeMap.insertTM tid inst m) = some inst := by
  induction m with
  | nil => simp [TypeMap.insertTM, TypeMap.lookupTM]
  | cons p rest ih =>
      obtain ⟨k, v⟩ := p
      by_cases hk : k = tid
      · simp [TypeMap.insertTM, TypeMap.lookupTM, hk]
      · simp [TypeMap.insertTM, TypeMap.lookupTM, hk, ih]

lemma removeTM_insertTM_of_none (tid inst : Nat) (m : TypeMap)
    (h : TypeMap.lookupTM tid m = none) :
    TypeMap.removeTM tid (TypeMap.insertTM tid inst m) = m := by
  induction m with
  | nil => simp [TypeMap.insertTM, TypeMap.removeTM]
  | cons p rest ih =>
      obtain ⟨k, v⟩ := p
      by_cases hk : k = tid
      · rw [TypeMap.lookupTM, if_pos hk] at h
        exact absurd h (by simp)
      · rw [TypeMap.lookupTM, if_neg hk] at h
        simp [TypeMap.insertTM, TypeMap.removeTM, hk, ih h]

/-- Claim C6: on a registry with no entry for the type, `get_or_create`
default-constructs (`fresh` is the identity of the default-constructed
instance), registers it and returns it, after which `has` is true; a
subsequent `remove` makes `has` false again; and when an entry is already
present, `get_or_create` returns the existing shared instance and leaves
the registry unchanged. -/
theorem c6_get_or_create_semantics (tid fresh : Nat) (r : StoreRegistry) :
    (r.hasStore tid = false →
      (r.get_or_create tid fresh).2 = fresh ∧
      ((r.get_or_create tid fresh).1).getStore tid = some fresh ∧
      ((r.get_or_create tid fresh).1).hasStore tid = true ∧
      (((r.get_or_create tid fresh).1).removeStore tid).hasStore tid
        = false) ∧
    ∀ inst, r.getStore tid = some inst →
      r.get_or_create tid fresh = (r, inst) := by
  constructor
  · intro habs
    have hnone : r.getStore tid = none := by
      cases hg : r.getStore tid with
      | none => rfl
      | some i =>
          rw [StoreRegistry.hasStore, hg] at habs
          simp at habs
    have hgc : r.get_or_create tid fresh = (r.register tid fresh, fresh) := by
      rw [StoreRegistry.get_or_create, hnone]
    rw [hgc]
    refine ⟨rfl, ?_, ?_, ?_⟩
    · exact lookupTM_insertTM_self tid fresh r.stores
    · rw [StoreRegistry.hasStore]
      rw [show (r.register tid fresh).getStore tid = some fresh from
        lookupTM_insertTM_self tid fresh r.stores]
      rfl
    · rw [StoreRegistry.hasStore, StoreRegistry.getStore]
      rw [show (StoreRegistry.removeStore tid (r.register tid fresh)).stores
          = r.stores from removeTM_insertTM_of_none tid fresh r.stores hnone]
      rw [show TypeMap.lookupTM tid r.stores = none from hnone]
      rfl
  · intro inst h
    rw [StoreRegistry.get_or_create, h]

/-- Witness for `c6_get_or_create_semantics`: starting from the empty
registry with type id 3 and default instance 7, then querying again with
a second default instance 9. -/
theorem c6_get_or_create_semantics_witness :
    ((StoreRegistry.new.get_or_create 3 7).2 = 7 ∧
     ((StoreRegistry.new.get_or_create 3 7).1).hasStore 3 = true ∧
     (((StoreRegistry.new.get_or_create 3 7).1).removeStore 3).hasStore 3
       = false) ∧
    ((StoreRegistry.new.get_or_create 3 7).1).get_or_create 3 9
      = ((StoreRegistry.new.get_or_create 3 7).1, 7) := by
  have h1 := (c6_get_or_create_semantics 3 7 StoreRegistry.new).1 (by decide)
  have h2 := (c6_get_or_create_semantics 3 9
    (StoreRegistry.new.get_or_create 3 7).1).2 7 (by decide)
  exact ⟨⟨h1.1, h1.2.2.1, h1.2.2.2⟩, h2⟩

/-! ## Claim C7 -/

lemma track_access_nextId (w : World T) :
    (track_access w).cell.nextId = w.cell.nextId := by
  unfold track_access
  cases w.slot
  · rfl
  · split <;> first | rfl | (split <;> rfl)

lemma track_access_subscribers (w : World T) :
    (track_access w).cell.subscribers = w.cell.subscribers := by
  unfold track_access
  cases w.slot
  · rfl
  · split <;> first | rfl | (split <;> rfl)

lemma get_fst_nextId (w : World T) :
    ((get w).1).cell.nextId = w.cell.nextId :=
  track_access_nextId w

lemma get_fst_subscribers (w : World T) :
    ((get w).1).cell.subscribers = w.cell.subscribers :=
  track_access_subscribers w

lemma runOps_lb (ops : List (Op T)) (w : World T) :
    ∀ i ∈ (runOps ops w).2, w.cell.nextId ≤ i := by
  induction ops generalizing w with
  | nil =>
      intro i hi
      simp [runOps] at hi
  | cons op ops ih =>
      cases op with
      | sub =>
          intro i hi
          have hi' : i = (subscribe w).2 ∨
              i ∈ (runOps ops (subscribe w).1).2 := List.mem_cons.mp hi
          rcases hi' with rfl | hi'
          · exact Nat.le.refl
          · exact Nat.le_trans (Nat.le_succ _) (ih (subscribe w).1 i hi')
      | unsub j => exact fun i hi => ih (unsubscribe j w) i hi
      | write v order => exact fun i hi => ih (set order v w).1 i hi
      | read =>
          intro i hi
          have h2 := ih (get w).1 i hi
          rwa [get_fst_nextId] at h2

lemma runOps_sorted (ops : List (Op T)) (w : World T) :
    List.Pairwise (· < ·) (runOps ops w).2 := by
  induction ops generalizing w with
  | nil => exact List.Pairwise.nil
  | cons op ops ih =>
      cases op with
      | sub =>
          show List.Pairwise (· < ·)
            ((subscribe w).2 :: (runOps ops (subscribe w).1).2)
          exact List.Pairwise.cons
            (fun j hj => runOps_lb ops (subscribe w).1 j hj)
            (ih (subscribe w).1)
      | unsub j => exact ih (unsubscribe j w)
      | write v order => exact ih (set order v w).1
      | read => exact ih (get w).1

lemma subscribe_subscribers_mem (w : World T) (id : Nat)
    (h : id ∈ w.cell.subscribers) :
    id ∈ ((subscribe w).1).cell.subscribers := by
  show id ∈ (if w.cell.subscribers.contains w.cell.nextId
    then w.cell.subscribers else w.cell.subscribers ++ [w.cell.nextId])
  split
  · exact h
  · exact List.mem_append_left _ h

lemma runOps_mem_preserved (ops : List (Op T)) (w : World T) (id : Nat)
    (hmem : id ∈ w.cell.subscribers) (hno : Op.unsub id ∉ ops) :
    id ∈ ((runOps ops w).1).cell.subscribers := by
  induction ops generalizing w with
  | nil => exact hmem
  | cons op ops ih =>
      have hno' : Op.unsub id ∉ ops :=
        fun hx => hno (List.mem_cons_of_mem _ hx)
      cases op with
      | sub =>
          exact ih (subscribe w).1 (subscribe_subscribers_mem w id hmem) hno'
      | unsub j =>
          have hj : id ≠ j := by
            rintro rfl
            exact hno (List.mem_cons_self _ _)
          refine ih (unsubscribe j w) ?_ hno'
          show id ∈ w.cell.subscribers.erase j
          exact (List.mem_erase_of_ne hj).mpr hmem
      | write v order => exact ih (set order v w).1 hmem hno'
      | read =>
          refine ih (get w).1 ?_ hno'
          rw [get_fst_subscribers]
          exact hmem

/-- Claim C7: across any sequence of calls on one cell, the ids returned
by `subscribe` are strictly increasing (hence pairwise distinct and never
reused); each returned id is the value of the fresh counter and is present
in the subscriber map right after subscribing; it stays present under any
further calls that do not unsubscribe it; and `unsubscribe` removes it. -/
theorem c7_subscription_ids (ops : List (Op T)) (w : World T) (id : Nat) :
    List.Pairwise (· < ·) (runOps ops w).2 ∧
    ((subscribe w).2 = w.cell.nextId ∧
      (subscribe w).2 ∈ ((subscribe w).1).cell.subscribers) ∧
    (id ∈ w.cell.subscribers → Op.unsub id ∉ ops →
      id ∈ ((runOps ops w).1).cell.subscribers) ∧
    (w.cell.subscribers.Nodup →
      id ∉ (unsubscribe id w).cell.subscribers) := by
  refine ⟨runOps_sorted ops w, ⟨rfl, ?_⟩,
    fun hm hn => runOps_mem_preserved ops w id hm hn, fun hnd => ?_⟩
  · show w.cell.nextId ∈ (if w.cell.subscribers.contains w.cell.nextId
      then w.cell.subscribers else w.cell.subscribers ++ [w.cell.nextId])
    split
    · next hcond => exact List.elem_iff.mp hcond
    · exact List.mem_append_right _ (List.mem_singleton.mpr rfl)
  · show id ∉ w.cell.subscribers.erase id
    exact hnd.not_mem_erase

/-- Witness for `c7_subscription_ids` on `twoSubWorld` with a
subscribe / unsubscribe-0 / subscribe sequence, watching id 1. -/
theorem c7_subscription_ids_witness :
    List.Pairwise (· < ·)
      (runOps [Op.sub, Op.unsub 0, Op.sub] twoSubWorld).2 ∧
    1 ∈ ((runOps [Op.sub, Op.unsub 0, Op.sub] twoSubWorld).1).cell.subscribers ∧
    1 ∉ (unsubscribe 1 twoSubWorld).cell.subscribers := by
  have h := c7_subscription_ids [Op.sub, Op.unsub 0, Op.sub] twoSubWorld 1
  exact ⟨h.1, h.2.2.1 (by decide) (by decide), h.2.2.2 (by decide)⟩

/-! ## Claim C8 -/

/-- Claim C8: for any id absent from the explicit-subscriber map,
`unsubscribe(id)` is a silent no-op: the resulting world — value,
remaining subscribers and all other state — is unchanged, so
double-unsubscribe is safe. -/
theorem c8_unsubscribe_absent_is_noop (w : World T) (id : Nat)
    (h : id ∉ w.cell.subscribers) : unsubscribe id w = w := by
  simp [unsubscribe, List.erase_of_not_mem h]

/-- Witness for `c8_unsubscribe_absent_is_noop`: id 5 was never issued on
`twoSubWorld`, and unsubscribing it twice changes nothing. -/
theorem c8_unsubscribe_absent_is_noop_witness :
    unsubscribe 5 twoSubWorld = twoSubWorld ∧
    unsubscribe 5 (unsubscribe 5 twoSubWorld) = twoSubWorld := by
  have h1 := c8_unsubscribe_absent_is_noop twoSubWorld 5 (by decide)
  exact ⟨h1, by rw [h1, h1]⟩

/-! ## Claim C9 -/

lemma getD_set_self (l : List α) (i : Nat) (x d : α) (h : i < l.length) :
    (l.set i x).getD i d = x := by
  rw [List.getD_eq_getElem?_getD, List.getElem?_set_self h]
  rfl

lemma track_accessH_values (h : OVHandle) (w : HWorld T) :
    (track_accessH h w).values = w.values := by
  unfold track_accessH
  cases w.slot
  · rfl
  · split <;> first | rfl | (dsimp only; split <;> rfl)

lemma eventSubIds_notifyH [Inhabited T] (order : List Nat) (h : OVHandle)
    (w : HWorld T) :
    eventSubIds (notifyH order h w).2 = order := by
  simp [notifyH, eventSubIds_append, eventSubIds_map_explicitCall,
    eventSubIds_map_invalidate]

/-- Claim C9: cloning an `ObservableValue` copies its four shared-pointer
fields, so the clone is a handle to the same cell, not an independent
copy: a write through the original is seen by a read through the clone;
a subscriber registered through the clone is invoked by a write through
the original; and the shared id counter keeps subscription ids distinct
across the two handles. -/
theorem c9_clone_shares_cell [Inhabited T] (a : OVHandle) (w : HWorld T)
    (v : T)
    (hval : a.valuePtr < w.values.length)
    (hsub : a.subscribersPtr < w.subsMaps.length)
    (hctr : a.nextIdPtr < w.counters.length) :
    OVHandle.clone a = a ∧
    (∀ order, (getH (OVHandle.clone a) ((setH order a v w).1)).2 = v) ∧
    (∀ order,
      order.Perm (((subscribeH (OVHandle.clone a) w).1).subsMaps.getD
          a.subscribersPtr []) →
      (subscribeH (OVHandle.clone a) w).2 ∈
        eventSubIds
          (setH order a v ((subscribeH (OVHandle.clone a) w).1)).2) ∧
    (subscribeH a w).2
      ≠ (subscribeH (OVHandle.clone a) ((subscribeH a w).1)).2 := by
  refine ⟨rfl, ?_, ?_, ?_⟩
  · intro order
    show (track_accessH a ((setH order a v w).1)).values.getD
      a.valuePtr default = v
    rw [track_accessH_values]
    show (w.values.set a.valuePtr v).getD a.valuePtr default = v
    exact getD_set_self w.values a.valuePtr v default hval
  · intro order hperm
    have hids : eventSubIds
        (setH order a v ((subscribeH (OVHandle.clone a) w).1)).2 = order :=
      eventSubIds_notifyH order a _
    rw [hids]
    refine hperm.mem_iff.mpr ?_
    have hgd : (((subscribeH (OVHandle.clone a) w).1).subsMaps.getD
        a.subscribersPtr [])
        = (if (w.subsMaps.getD a.subscribersPtr []).contains
              (w.counters.getD a.nextIdPtr 0)
           then w.subsMaps.getD a.subscribersPtr []
           else w.subsMaps.getD a.subscribersPtr []
             ++ [w.counters.getD a.nextIdPtr 0]) :=
      getD_set_self w.subsMaps a.subscribersPtr _ [] hsub
    rw [hgd]
    split
    · next hcond => exact List.elem_iff.mp hcond
    · exact List.mem_append_right _ (List.mem_singleton.mpr rfl)
  · show w.counters.getD a.nextIdPtr 0
      ≠ ((subscribeH a w).1).counters.getD a.nextIdPtr 0
    have h2 : ((subscribeH a w).1).counters.getD a.nextIdPtr 0
        = w.counters.getD a.nextIdPtr 0 + 1 :=
      getD_set_self w.counters a.nextIdPtr _ 0 hctr
    rw [h2]
    omega

/-- Witness for `c9_clone_shares_cell` on the one-cell heap `hw1`. -/
theorem c9_clone_shares_cell_witness :
    (getH (OVHandle.clone hA) ((setH [] hA 42 hw1).1)).2 = 42 ∧
    ((subscribeH (OVHandle.clone hA) hw1).2 ∈
      eventSubIds
        (setH [0] hA 42 ((subscribeH (OVHandle.clone hA) hw1).1)).2) ∧
    (subscribeH hA hw1).2
      ≠ (subscribeH (OVHandle.clone hA) ((subscribeH hA hw1).1)).2 := by
  have h := c9_clone_shares_cell hA hw1 42 (by decide) (by decide) (by decide)
  refine ⟨h.2.1 [], h.2.2.1 [0] ?_, h.2.2.2⟩
  have hsubs : ((subscribeH (OVHandle.clone hA) hw1).1).subsMaps.getD
      hA.subscribersPtr [] = [0] := by decide
  rw [hsubs]

/-! ## Claim C10 -/

lemma lookupTM_eq_none_iff (tid : Nat) (m : TypeMap) :
    TypeMap.lookupTM tid m = none ↔ tid ∉ m.map Prod.fst := by
  induction m with
  | nil => simp [TypeMap.lookupTM]
  | cons p rest ih =>
      obtain ⟨k, v⟩ := p
      by_cases hk : k = tid
      · simp [TypeMap.lookupTM, hk]
      · simp only [TypeMap.lookupTM, if_neg hk, List.map_cons,
          List.mem_cons]
        rw [ih]
        constructor
        · rintro hn (rfl | hmem)
          · exact hk rfl
          · exact hn hmem
        · intro hn hmem
          exact hn (Or.inr hmem)

lemma lookupTM_removeTM_self (tid : Nat) (m : TypeMap)
    (h : (m.map Prod.fst).Nodup) :
    TypeMap.lookupTM tid (TypeMap.removeTM tid m) = none := by
  induction m with
  | nil => rfl
  | cons p rest ih =>
      obtain ⟨k, v⟩ := p
      rw [List.map_cons] at h
      have hk_notin := (List.nodup_cons.mp h).1
      have hrest := (List.nodup_cons.mp h).2
      by_cases hk : k = tid
      · rw [TypeMap.removeTM, if_pos hk]
        subst hk
        exact (lookupTM_eq_none_iff k rest).mpr hk_notin
      · rw [TypeMap.removeTM, if_neg hk, TypeMap.lookupTM, if_neg hk]
        exact ih hrest

/-- Claim C10: `clone_to(name)` returns a context that shares the same
underlying store-map allocation as the original and differs only in its
name: its name is the given one, its map pointer is the original's, a
`register` or `remove` through either context is visible through the
other, and a `clear` through the clone leaves the original counting zero
stores. -/
theorem c10_clone_to_shares_map (c : StoreContext) (n : String)
    (tid inst : Nat) (hp : CtxHeap)
    (hv : ctxValid c hp)
    (hkeys : ((ctxMap c hp).map Prod.fst).Nodup) :
    (c.clone_to n).name = n ∧
    (c.clone_to n).storesPtr = c.storesPtr ∧
    StoreContext.hasStore c tid
      (StoreContext.register (c.clone_to n) tid inst hp) = true ∧
    StoreContext.hasStore (c.clone_to n) tid
      (StoreContext.register c tid inst hp) = true ∧
    StoreContext.hasStore c tid
      (StoreContext.removeStore (c.clone_to n) tid hp) = false ∧
    StoreContext.count c (StoreContext.clear (c.clone_to n) hp) = 0 := by
  have hreg : ctxMap c (StoreContext.register (c.clone_to n) tid inst hp)
      = TypeMap.insertTM tid inst (ctxMap c hp) :=
    getD_set_self hp.maps c.storesPtr _ [] hv
  refine ⟨rfl, rfl, ?_, ?_, ?_, ?_⟩
  · rw [StoreContext.hasStore, StoreContext.getStore, hreg,
      lookupTM_insertTM_self]
    rfl
  · show (TypeMap.lookupTM tid
      (ctxMap c (StoreContext.register c tid inst hp))).isSome = true
    rw [show ctxMap c (StoreContext.register c tid inst hp)
        = TypeMap.insertTM tid inst (ctxMap c hp) from
      getD_set_self hp.maps c.storesPtr _ [] hv]
    rw [lookupTM_insertTM_self]
    rfl
  · rw [StoreContext.hasStore, StoreContext.getStore,
      show ctxMap c (StoreContext.removeStore (c.clone_to n) tid hp)
          = TypeMap.removeTM tid (ctxMap c hp) from
        getD_set_self hp.maps c.storesPtr _ [] hv,
      lookupTM_removeTM_self tid _ hkeys]
    rfl
  · rw [StoreContext.count,
      show ctxMap c (StoreContext.clear (c.clone_to n) hp) = [] from
        getD_set_self hp.maps c.storesPtr _ [] hv]
    rfl

/-- Witness for `c10_clone_to_shares_map` on the one-allocation heap
`ctxHeap1` and context `ctxA`. -/
theorem c10_clone_to_shares_map_witness :
    (ctxA.clone_to "copy").name = "copy" ∧
    StoreContext.hasStore ctxA 3
      (StoreContext.register (ctxA.clone_to "copy") 3 7 ctxHeap1) = true ∧
    StoreContext.hasStore ctxA 3
      (StoreContext.removeStore (ctxA.clone_to "copy") 3 ctxHeap1)
      = false ∧
    StoreContext.count ctxA
      (StoreContext.clear (ctxA.clone_to "copy") ctxHeap1) = 0 := by
  have h := c10_clone_to_shares_map ctxA "copy" 3 7 ctxHeap1
    (by unfold ctxValid; decide) (by decide)
  exact ⟨h.1, h.2.2.1, h.2.2.2.2.1, h.2.2.2.2.2⟩

end Reaxive
